import Mathlib

/-!
Verification of the pyo3 macro-backend module-processing core
(`pyo3-macros-backend/src/module.rs`): the `#[pyfn]` attribute-argument
parser (`PyFnArgs::parse`), the options merge with deprecation recording,
the statement scanner/rewriter (`process_functions_in_module` /
`get_pyfn_attr`), and the module-initializer generator (`py_init`).

The embedding mirrors the Rust source.  Collaborators that live outside
`module.rs` (the generic options grammar `PyFunctionOptions::parse`,
`PyFunctionOptions::set_name`, `take_pyo3_options`, `take_attributes`,
`is_attribute_ident`, the wrapper builder `impl_wrap_pyfunction`, identifier
parsing of a string literal) are modelled from the specification; each such
definition is marked `Modelled from the spec:`.
-/

set_option autoImplicit false

namespace PyO3

/-- A source location (`proc_macro2::Span`), abstracted to a number. -/
abbrev Span := Nat

/-- A `syn::Error`: a message together with the span it is scoped to. -/
structure Err where
  msg : String
  span : Span
  deriving DecidableEq, Repr

/-- The tokens that can appear in a `#[pyfn(...)]` argument list, at the
granularity at which `PyFnArgs::parse` consumes them: a path expression
(`syn::Path`), a comma, a string literal (`syn::LitStr`), or a keyword
option group `name = "..."` from the generic options grammar. -/
inductive Tok where
  | pathTok (p : String)
  | comma
  | litStr (s : String) (span : Span)
  | nameEq (v : String) (span : Span)
  deriving DecidableEq, Repr

/-- The deprecation kinds (`deprecations::Deprecation`); `module.rs` uses
only the legacy positional name argument kind. -/
inductive Deprecation where
  | PyfnNameArgument
  deriving DecidableEq, Repr

/-- Modelled from the spec: `PyFunctionOptions`, the extensible export
options record with a `name_override : optional Identifier` field and an
ordered list of `(DeprecationKind, SourceSpan)` records. -/
structure PyFunctionOptions where
  name : Option String := none
  deprecations : List (Deprecation × Span) := []
  deriving DecidableEq, Repr

/-- Modelled from the spec: `PyFunctionOptions::set_name` sets the name
override, overwriting any value already present (spec 4.2: "set it as
`options.name_override`, overwriting any value already present"). -/
def PyFunctionOptions.set_name (o : PyFunctionOptions) (v : String) :
    PyFunctionOptions :=
  { o with name := some v }

/-- Modelled from the spec: `Deprecations::push` appends a record to the
ordered deprecation sequence. -/
def PyFunctionOptions.pushDeprecation (o : PyFunctionOptions)
    (d : Deprecation) (sp : Span) : PyFunctionOptions :=
  { o with deprecations := o.deprecations ++ [(d, sp)] }

/-- Modelled from the spec: `PyFunctionOptions::parse`, the shared generic
function-export options grammar — a loop over keyword-style options
separated by commas, empty input yielding the options passed in.  The
`name = "..."` keyword sets the name override. -/
def pyFunctionOptionsParseFrom :
    List Tok → PyFunctionOptions → Except Err PyFunctionOptions
  | [], opts => .ok opts
  | Tok.nameEq v _ :: rest, opts =>
    let opts := opts.set_name v
    match rest with
    | [] => .ok opts
    | Tok.comma :: rest2 => pyFunctionOptionsParseFrom rest2 opts
    | _ => .error ⟨"expected `,`", 0⟩
  | _, _ => .error ⟨"unexpected token in #[pyfn] options", 0⟩

/-- Rust/`syn` identifier validity for the content of a string literal
parsed as an `Ident` (`lit_str.parse::<Ident>()`): nonempty, starts with a
letter or underscore, continues with letters, digits or underscores. -/
def isIdentStart (c : Char) : Bool := c.isAlpha || c == '_'

/-- Continuation characters of an identifier. -/
def isIdentCont (c : Char) : Bool := c.isAlphanum || c == '_'

/-- Whether a string literal's content parses as an identifier. -/
def isValidIdent (s : String) : Bool :=
  match s.data with
  | [] => false
  | c :: cs => isIdentStart c && cs.all isIdentCont

/-- The parsed `#[pyfn(...)]` arguments (`PyFnArgs`): the target module
path and the merged export options. -/
structure PyFnArgs where
  modname : String
  options : PyFunctionOptions
  deriving DecidableEq, Repr

/-- `PyFnArgs::parse` from `module.rs`: parse the mandatory module path
(failure reported as "expected module as first argument to #[pyfn()]");
if input remains, require a comma; speculatively consume a string literal
as the legacy positional name (requiring a comma after it when input
remains); parse the remaining tokens with the generic options grammar;
finally, if a legacy name was present, parse it as an identifier, set it
as the name override and push a `PyfnNameArgument` deprecation record. -/
def PyFnArgs.parse (input : List Tok) : Except Err PyFnArgs :=
  match input with
  | Tok.pathTok modname :: input =>
    if input.isEmpty then
      .ok { modname := modname, options := {} }
    else
      match input with
      | Tok.comma :: input =>
        -- `if let Ok(lit_str) = input.parse::<syn::LitStr>()`: a string
        -- literal is consumed when present, with a comma after it when
        -- input remains.
        let litAndRest : Except Err (Option (String × Span) × List Tok) :=
          match input with
          | Tok.litStr s sp :: rest =>
            match rest with
            | [] => .ok (some (s, sp), [])
            | Tok.comma :: rest2 => .ok (some (s, sp), rest2)
            | _ => .error (Err.mk "expected `,`" 0)
          | _ => .ok (none, input)
        match litAndRest with
        | .error e => .error e
        | .ok (deprecated_name_argument, input) =>
          match pyFunctionOptionsParseFrom input {} with
          | .error e => .error e
          | .ok options =>
            match deprecated_name_argument with
            | some (s, sp) =>
              -- `options.set_name(NameAttribute(lit_str.parse()?))?;` —
              -- the `?` on the identifier parse returns before the
              -- deprecation push below.
              if isValidIdent s then
                .ok { modname := modname,
                      options := (options.set_name s).pushDeprecation
                        Deprecation.PyfnNameArgument sp }
              else
                .error (Err.mk "expected identifier" sp)
            | none => .ok { modname := modname, options := options }
      | _ => .error (Err.mk "expected `,`" 0)
  | _ =>
    .error (Err.mk "expected module as first argument to #[pyfn()]" 0)

/-- The statically known part of the generated module definition
descriptor: `static MODULE_DEF: ModuleDef = ModuleDef::new(NAME, DOC)`. -/
structure ModuleDef where
  name : String
  doc : String
  deriving DecidableEq, Repr

/-- The generated entry point emitted by `py_init`: its symbol name, its
parameter list, its return type, the embedded module definition, and the
user initializer function handed to `make_module`. -/
structure InitEntryPoint where
  symbol : String
  params : List String
  retType : String
  moduleDef : ModuleDef
  userInit : String
  deriving DecidableEq, Repr

/-- Rust's `str::ends_with('\0')`: whether the final character of the
string is the NUL character. -/
def endsWithNul (s : String) : Bool :=
  match s.data.getLast? with
  | some c => c == '\x00'
  | none => false

/-- `py_init` from `module.rs`: asserts that the doc string ends in a NUL
byte (`assert!(doc.value().ends_with('\0'))`) — on violation the process
aborts and no output is generated, modelled as `none`.  Otherwise it emits
the entry point `PyInit_<name>` with no parameters, returning
`*mut pyo3::ffi::PyObject`, whose descriptor embeds
`concat!(stringify!(name), "\0")` as the name and the doc verbatim. -/
def py_init (fnname name : String) (doc : String) : Option InitEntryPoint :=
  if endsWithNul doc then
    some { symbol := "PyInit_" ++ name
           params := []
           retType := "*mut pyo3::ffi::PyObject"
           moduleDef := { name := name ++ "\x00", doc := doc }
           userInit := fnname }
  else
    none

/-- A `syn::Attribute`, at the granularity the scanner needs: the
attribute's path identifier (e.g. `pyfn`, `pyo3`), its argument tokens,
and its span. -/
structure Attribute where
  ident : String
  args : List Tok
  span : Span
  deriving DecidableEq, Repr

/-- Modelled from the spec: `is_attribute_ident(attr, name)` — whether the
attribute's path is exactly the given identifier. -/
def is_attribute_ident (attr : Attribute) (name : String) : Bool :=
  attr.ident == name

/-- Modelled from the spec: `take_attributes(attrs, f)` — runs the
(stateful, fallible) extractor over the attribute list in order, removes
the attributes for which it returns `true`, keeps the others in order, and
propagates its first error.  The closure's captured state is passed
explicitly.  On error the attribute list is modelled as left unchanged
(the most atomicity-friendly reading of the missing source). -/
def take_attributes {σ : Type} (attrs : List Attribute)
    (f : Attribute → σ → Except Err (Bool × σ)) (s : σ) :
    Except Err (List Attribute × σ) :=
  match attrs with
  | [] => .ok ([], s)
  | a :: rest =>
    match f a s with
    | .error e => .error e
    | .ok (true, s') => take_attributes rest f s'
    | .ok (false, s') =>
      match take_attributes rest f s' with
      | .error e => .error e
      | .ok (kept, s'') => .ok (a :: kept, s'')

/-- The closure passed to `take_attributes` in `get_pyfn_attr`: a `pyfn`
attribute is a hard error if one was already found ("`#[pyfn] may only be
specified once", at the duplicate's span), otherwise its arguments are
parsed and it is removed; any other attribute is kept. -/
def pyfnExtractor (attr : Attribute) (st : Option PyFnArgs) :
    Except Err (Bool × Option PyFnArgs) :=
  if is_attribute_ident attr "pyfn" then
    match st with
    | some _ =>
      .error (Err.mk "`#[pyfn] may only be specified once" attr.span)
    | none =>
      match PyFnArgs.parse attr.args with
      | .error e => .error e
      | .ok a => .ok (true, some a)
  else
    .ok (false, st)

/-- Modelled from the spec: `PyFunctionOptions::take_pyo3_options` —
removes the system's own `pyo3` option attributes from the list and merges
their contents into the options via the generic options grammar, keeping
every other attribute in order.  On error the list is modelled as left
unchanged. -/
def take_pyo3_options (attrs : List Attribute) (opts : PyFunctionOptions) :
    Except Err (List Attribute × PyFunctionOptions) :=
  match attrs with
  | [] => .ok ([], opts)
  | a :: rest =>
    if is_attribute_ident a "pyo3" then
      match pyFunctionOptionsParseFrom a.args opts with
      | .error e => .error e
      | .ok opts' => take_pyo3_options rest opts'
    else
      match take_pyo3_options rest opts with
      | .error e => .error e
      | .ok (kept, opts') => .ok (a :: kept, opts')

/-- `get_pyfn_attr` from `module.rs`: runs `take_attributes` with
`pyfnExtractor` over the function's attributes, and, when a `#[pyfn]` was
found, additionally runs `take_pyo3_options` on the remaining attributes,
merging them into the parsed options.  The Rust function mutates the
attribute list through `&mut`; the model returns the post-call list
alongside the result, so the caller observes the mutation even on
error. -/
def get_pyfn_attr (attrs : List Attribute) :
    Except Err (Option PyFnArgs) × List Attribute :=
  match take_attributes attrs pyfnExtractor none with
  | .error e => (.error e, attrs)
  | .ok (attrs1, none) => (.ok none, attrs1)
  | .ok (attrs1, some pa) =>
    match take_pyo3_options attrs1 pa.options with
    | .error e => (.error e, attrs1)
    | .ok (attrs2, opts) =>
      (.ok (some { pa with options := opts }), attrs2)

/-- An inner function declaration (`syn::ItemFn` inside the module body):
its name, its attribute list, and an opaque remainder (signature and
body). -/
structure FnItem where
  name : String
  attrs : List Attribute
  body : Nat
  deriving DecidableEq, Repr

/-- A statement of the module body (`syn::Stmt`): an inner function item,
some other statement (opaque), or one of the two statements spliced from
the synthesized `block_wrapper` block — the wrapped function produced by
the wrapper builder, and the `#module_name.add_function(#ident(#module_name)?)?;`
registration call. -/
inductive Stmt where
  | fnItem (f : FnItem)
  | other (n : Nat)
  | wrappedFn (orig : FnItem) (opts : PyFunctionOptions)
  | addFnCall (modname : String) (wrapperIdent : String)
  deriving DecidableEq, Repr

/-- The module function being processed (`syn::ItemFn`); only its block's
statement list matters to the scanner. -/
structure ItemFn where
  stmts : List Stmt
  deriving DecidableEq, Repr

/-- Modelled from the spec: the external function-wrapper builder
(`impl_wrap_pyfunction`) — takes the now-annotation-free function
declaration plus the merged export options and returns the wrapper's
identifier together with the wrapped-function declaration. -/
def impl_wrap_pyfunction (f : FnItem) (opts : PyFunctionOptions) :
    String × Stmt :=
  ("__pyo3_get_function_" ++ f.name, Stmt.wrappedFn f opts)

/-- One iteration of the scanner's loop body: for an inner function item,
run `get_pyfn_attr` on its attributes (an in-place mutation); when a
`#[pyfn]` was found, invoke the wrapper builder and produce the two
synthesized statements spliced from the `block_wrapper` block, to go
immediately before the statement.  Returns the synthesized statements (or
the error) together with the post-call statement. -/
def processStmt (s : Stmt) : Except Err (List Stmt) × Stmt :=
  match s with
  | Stmt.fnItem f =>
    match get_pyfn_attr f.attrs with
    | (.error e, attrs') => (.error e, Stmt.fnItem { f with attrs := attrs' })
    | (.ok none, attrs') => (.ok [], Stmt.fnItem { f with attrs := attrs' })
    | (.ok (some pa), attrs') =>
      let f' : FnItem := { f with attrs := attrs' }
      let (ident, wrapped) := impl_wrap_pyfunction f' pa.options
      (.ok [wrapped, Stmt.addFnCall pa.modname ident], Stmt.fnItem f')
  | s => (.ok [], s)

/-- The scanner's loop over `func.block.stmts.iter_mut()`: builds the new
statement list (synthesized statements first, then the cloned statement),
and also returns the in-place-mutated input list, which is what remains in
`func.block.stmts` when an error aborts the loop before the final
assignment. -/
def processStmtsAux : List Stmt → Except Err (List Stmt) × List Stmt
  | [] => (.ok [], [])
  | stmt :: rest =>
    match processStmt stmt with
    | (.error e, stmt') => (.error e, stmt' :: rest)
    | (.ok synth, stmt') =>
      match processStmtsAux rest with
      | (.ok out, rest') => (.ok (synth ++ stmt' :: out), stmt' :: rest')
      | (.error e, rest') => (.error e, stmt' :: rest')

/-- `process_functions_in_module` from `module.rs`: on success the block's
statement list is replaced by the rewritten list; on error the rewritten
list is discarded and the block keeps its original list with whatever
in-place mutations the loop already performed. -/
def process_functions_in_module (func : ItemFn) : Except Err Unit × ItemFn :=
  match processStmtsAux func.stmts with
  | (.ok stmts, _) => (.ok (), { func with stmts := stmts })
  | (.error e, mutated) => (.error e, { func with stmts := mutated })

/-- Whether an attribute list contains a `pyfn` attribute. -/
def hasPyfnAttr (attrs : List Attribute) : Bool :=
  attrs.any (fun a => a.ident == "pyfn")

/-- Whether a statement is an inner function carrying the `pyfn`
annotation. -/
def hasPyfnStmt : Stmt → Bool
  | Stmt.fnItem f => hasPyfnAttr f.attrs
  | _ => false

/-- Whether an attribute list contains a `pyo3` options attribute. -/
def hasPyo3Attr (attrs : List Attribute) : Bool :=
  attrs.any (fun a => a.ident == "pyo3")

/-- Whether a statement is one of the two synthesized registration
statements. -/
def isRegistrationStmt : Stmt → Bool
  | Stmt.addFnCall _ _ => true
  | _ => false

/-- The attributes left after `take_attributes` removed the `pyfn`
annotation: every non-`pyfn` attribute, in order. -/
def stripOnce (attrs : List Attribute) : List Attribute :=
  attrs.filter (fun a => !(a.ident == "pyfn"))

/-- The attributes left after both the `pyfn` annotation and the `pyo3`
option attributes were removed. -/
def stripTwice (attrs : List Attribute) : List Attribute :=
  (attrs.filter (fun a => !(a.ident == "pyfn"))).filter
    (fun a => !(a.ident == "pyo3"))

/-- The possible states of one function's attribute list after a scanner
pass that may have stopped early: untouched, with the `pyfn` annotation
stripped, or with both the `pyfn` annotation and the `pyo3` option
attributes stripped; name and body are never changed. -/
def attrsOutcome (f g : FnItem) : Bool :=
  g.name == f.name && g.body == f.body &&
    (g.attrs == f.attrs || g.attrs == stripOnce f.attrs ||
     g.attrs == stripTwice f.attrs)

/-- The possible states of one statement after a scanner pass that may
have stopped early: non-function statements are untouched, function items
may have had attributes stripped in place. -/
def stmtOutcome : Stmt → Stmt → Bool
  | Stmt.fnItem f, Stmt.fnItem g => attrsOutcome f g
  | s, s' => s' == s

/-- Pointwise `stmtOutcome` over two statement lists of equal length: no
statement was inserted, removed or reordered, and each statement is at
most attribute-stripped. -/
def stmtsOutcome (l l' : List Stmt) : Bool :=
  (l.length == l'.length) && (List.zip l l').all (fun q => stmtOutcome q.1 q.2)

/-! ### Helper lemmas about the scanner -/

theorem take_attributes_clean (attrs : List Attribute) (st : Option PyFnArgs)
    (h : hasPyfnAttr attrs = false) :
    take_attributes attrs pyfnExtractor st = .ok (attrs, st) := by
  induction attrs with
  | nil => rfl
  | cons a rest ih =>
    simp only [hasPyfnAttr, List.any_cons, Bool.or_eq_false_iff] at h
    have ha : is_attribute_ident a "pyfn" = false := h.1
    have hrest := ih h.2
    simp [take_attributes, pyfnExtractor, ha, hrest]

theorem take_pyo3_options_clean (attrs : List Attribute)
    (opts : PyFunctionOptions) (h : hasPyo3Attr attrs = false) :
    take_pyo3_options attrs opts = .ok (attrs, opts) := by
  induction attrs with
  | nil => rfl
  | cons a rest ih =>
    simp only [hasPyo3Attr, List.any_cons, Bool.or_eq_false_iff] at h
    have ha : is_attribute_ident a "pyo3" = false := h.1
    have hrest := ih h.2
    simp [take_pyo3_options, ha, hrest]

theorem get_pyfn_attr_clean (attrs : List Attribute)
    (h : hasPyfnAttr attrs = false) :
    get_pyfn_attr attrs = (.ok none, attrs) := by
  simp [get_pyfn_attr, take_attributes_clean attrs none h]

theorem processStmt_clean (s : Stmt) (h : hasPyfnStmt s = false) :
    processStmt s = (.ok [], s) := by
  cases s with
  | fnItem f =>
    simp only [hasPyfnStmt] at h
    simp [processStmt, get_pyfn_attr_clean f.attrs h]
  | other n => rfl
  | wrappedFn f opts => rfl
  | addFnCall m i => rfl

theorem processStmtsAux_clean (l : List Stmt)
    (h : ∀ s ∈ l, hasPyfnStmt s = false) :
    processStmtsAux l = (.ok l, l) := by
  induction l with
  | nil => rfl
  | cons s rest ih =>
    have hs := processStmt_clean s (h s (List.mem_cons_self s rest))
    have hrest := ih (fun t ht => h t (List.mem_cons_of_mem s ht))
    simp [processStmtsAux, hs, hrest]

theorem take_attributes_single (a1 a2 : List Attribute) (p : Attribute)
    (pa : PyFnArgs) (hp : p.ident = "pyfn")
    (h1 : hasPyfnAttr a1 = false) (h2 : hasPyfnAttr a2 = false)
    (hparse : PyFnArgs.parse p.args = .ok pa) :
    take_attributes (a1 ++ p :: a2) pyfnExtractor none =
      .ok (a1 ++ a2, some pa) := by
  induction a1 with
  | nil =>
    simp [take_attributes, pyfnExtractor, is_attribute_ident, hp, hparse,
          take_attributes_clean a2 (some pa) h2]
  | cons a rest ih =>
    simp only [hasPyfnAttr, List.any_cons, Bool.or_eq_false_iff] at h1
    have ha : is_attribute_ident a "pyfn" = false := h1.1
    have hrest := ih h1.2
    simp [take_attributes, pyfnExtractor, ha, hrest]

theorem get_pyfn_attr_single (a1 a2 : List Attribute) (p : Attribute)
    (pa : PyFnArgs) (hp : p.ident = "pyfn")
    (h1 : hasPyfnAttr a1 = false) (h2 : hasPyfnAttr a2 = false)
    (h3 : hasPyo3Attr (a1 ++ a2) = false)
    (hparse : PyFnArgs.parse p.args = .ok pa) :
    get_pyfn_attr (a1 ++ p :: a2) = (.ok (some pa), a1 ++ a2) := by
  simp [get_pyfn_attr, take_attributes_single a1 a2 p pa hp h1 h2 hparse,
        take_pyo3_options_clean (a1 ++ a2) pa.options h3]

theorem processStmt_single (f : FnItem) (a1 a2 : List Attribute)
    (p : Attribute) (pa : PyFnArgs)
    (hattrs : f.attrs = a1 ++ p :: a2) (hp : p.ident = "pyfn")
    (h1 : hasPyfnAttr a1 = false) (h2 : hasPyfnAttr a2 = false)
    (h3 : hasPyo3Attr (a1 ++ a2) = false)
    (hparse : PyFnArgs.parse p.args = .ok pa) :
    processStmt (Stmt.fnItem f) =
      (.ok [Stmt.wrappedFn { f with attrs := a1 ++ a2 } pa.options,
            Stmt.addFnCall pa.modname ("__pyo3_get_function_" ++ f.name)],
       Stmt.fnItem { f with attrs := a1 ++ a2 }) := by
  simp [processStmt, hattrs,
        get_pyfn_attr_single a1 a2 p pa hp h1 h2 h3 hparse,
        impl_wrap_pyfunction]

theorem processStmtsAux_append_clean (A l out l' : List Stmt)
    (hA : ∀ s ∈ A, hasPyfnStmt s = false)
    (hl : processStmtsAux l = (.ok out, l')) :
    processStmtsAux (A ++ l) = (.ok (A ++ out), A ++ l') := by
  induction A with
  | nil => simpa using hl
  | cons s rest ih =>
    have hs := processStmt_clean s (hA s (List.mem_cons_self s rest))
    have hrest := ih (fun t ht => hA t (List.mem_cons_of_mem s ht))
    simp [processStmtsAux, hs, hrest]

/-! ### Claim theorems -/

/-- C1: A module body whose statements are `A ++ [fn f] ++ B`, where `f` is
the only inner function carrying the `pyfn` annotation (appearing exactly
once among its attributes, with parseable arguments and no further pyo3
option attributes), rewrites successfully to
`A ++ [wrapped fn, registration call, annotation-stripped f] ++ B`: the
synthesized registration is spliced immediately before the stripped
original statement, every other statement is unchanged and in its original
relative order, and (when the input contains no registration-shaped
statements) the output contains exactly one registration call. -/
theorem c1_single_annotated_rewrite (func : ItemFn) (A B : List Stmt)
    (f : FnItem) (a1 a2 : List Attribute) (p : Attribute) (pa : PyFnArgs)
    (hfunc : func.stmts = A ++ Stmt.fnItem f :: B)
    (hA : ∀ s ∈ A, hasPyfnStmt s = false)
    (hB : ∀ s ∈ B, hasPyfnStmt s = false)
    (hattrs : f.attrs = a1 ++ p :: a2) (hp : p.ident = "pyfn")
    (h1 : hasPyfnAttr a1 = false) (h2 : hasPyfnAttr a2 = false)
    (h3 : hasPyo3Attr (a1 ++ a2) = false)
    (hparse : PyFnArgs.parse p.args = .ok pa) :
    process_functions_in_module func =
      (.ok (), { func with stmts :=
        (A ++ Stmt.wrappedFn { f with attrs := a1 ++ a2 } pa.options ::
          Stmt.addFnCall pa.modname ("__pyo3_get_function_" ++ f.name) ::
          Stmt.fnItem { f with attrs := a1 ++ a2 } :: B) }) ∧
    ((∀ s ∈ A, isRegistrationStmt s = false) →
     (∀ s ∈ B, isRegistrationStmt s = false) →
      List.countP isRegistrationStmt
        (A ++ Stmt.wrappedFn { f with attrs := a1 ++ a2 } pa.options ::
          Stmt.addFnCall pa.modname ("__pyo3_get_function_" ++ f.name) ::
          Stmt.fnItem { f with attrs := a1 ++ a2 } :: B) = 1) := by
  have hf := processStmt_single f a1 a2 p pa hattrs hp h1 h2 h3 hparse
  have hB' := processStmtsAux_clean B hB
  have htail : processStmtsAux (Stmt.fnItem f :: B) =
      (.ok (Stmt.wrappedFn { f with attrs := a1 ++ a2 } pa.options ::
            Stmt.addFnCall pa.modname ("__pyo3_get_function_" ++ f.name) ::
            Stmt.fnItem { f with attrs := a1 ++ a2 } :: B),
       Stmt.fnItem { f with attrs := a1 ++ a2 } :: B) := by
    simp [processStmtsAux, hf, hB']
  have hall := processStmtsAux_append_clean A _ _ _ hA htail
  constructor
  · simp [process_functions_in_module, hfunc, hall]
  · intro hA' hB'
    have hcA : List.countP isRegistrationStmt A = 0 :=
      List.countP_eq_zero.mpr (by simpa using hA')
    have hcB : List.countP isRegistrationStmt B = 0 :=
      List.countP_eq_zero.mpr (by simpa using hB')
    simp [List.countP_append, List.countP_cons, hcA, hcB, isRegistrationStmt]

/-- Witness for C1 at a concrete module body with one annotated function
between two unrelated statements. -/
theorem c1_single_annotated_rewrite_witness :
    process_functions_in_module
      ⟨[Stmt.other 0,
        Stmt.fnItem ⟨"foo", [⟨"pyfn", [Tok.pathTok "m"], 5⟩], 7⟩,
        Stmt.other 1]⟩ =
      (.ok (),
       ⟨[Stmt.other 0,
         Stmt.wrappedFn ⟨"foo", [], 7⟩ {},
         Stmt.addFnCall "m" "__pyo3_get_function_foo",
         Stmt.fnItem ⟨"foo", [], 7⟩,
         Stmt.other 1]⟩) ∧
    List.countP isRegistrationStmt
      [Stmt.other 0,
       Stmt.wrappedFn ⟨"foo", [], 7⟩ {},
       Stmt.addFnCall "m" "__pyo3_get_function_foo",
       Stmt.fnItem ⟨"foo", [], 7⟩,
       Stmt.other 1] = 1 := by
  have h := c1_single_annotated_rewrite
    ⟨[Stmt.other 0,
      Stmt.fnItem ⟨"foo", [⟨"pyfn", [Tok.pathTok "m"], 5⟩], 7⟩,
      Stmt.other 1]⟩
    [Stmt.other 0] [Stmt.other 1]
    ⟨"foo", [⟨"pyfn", [Tok.pathTok "m"], 5⟩], 7⟩
    [] [] ⟨"pyfn", [Tok.pathTok "m"], 5⟩ ⟨"m", {}⟩
    rfl (by decide) (by decide) rfl rfl (by decide) (by decide) (by decide)
    rfl
  exact ⟨h.1, h.2 (by decide) (by decide)⟩

/-- C2: When no statement of the module body carries the `pyfn`
annotation, the rewriter succeeds and the output statement sequence is
structurally identical to the input. -/
theorem c2_identity_without_pyfn (func : ItemFn)
    (h : ∀ s ∈ func.stmts, hasPyfnStmt s = false) :
    process_functions_in_module func = (.ok (), func) := by
  simp [process_functions_in_module, processStmtsAux_clean func.stmts h]

/-- Witness for C2 at a concrete annotation-free module body, including an
inner function with an unrelated attribute. -/
theorem c2_identity_without_pyfn_witness :
    process_functions_in_module
      ⟨[Stmt.other 0, Stmt.fnItem ⟨"g", [⟨"doc", [], 4⟩], 3⟩]⟩ =
      (.ok (), ⟨[Stmt.other 0, Stmt.fnItem ⟨"g", [⟨"doc", [], 4⟩], 3⟩]⟩) :=
  c2_identity_without_pyfn
    ⟨[Stmt.other 0, Stmt.fnItem ⟨"g", [⟨"doc", [], 4⟩], 3⟩]⟩ (by decide)

/-- C3: Parsing `mymod, "legacy_name", name = "other"` succeeds, and the
merged options' name override is decided last-applied-wins: the generic
options grammar first sets the keyword value (second conjunct shows it is
parsed, not dropped), and the merge step then overwrites it with the
legacy positional value, also recording the deprecation. -/
theorem c3_legacy_overrides_keyword :
    PyFnArgs.parse [Tok.pathTok "mymod", Tok.comma, Tok.litStr "legacy_name" 3,
                    Tok.comma, Tok.nameEq "other" 4] =
      .ok { modname := "mymod",
            options := { name := some "legacy_name",
                         deprecations := [(Deprecation.PyfnNameArgument, 3)] } } ∧
    PyFnArgs.parse [Tok.pathTok "mymod", Tok.comma, Tok.nameEq "other" 4] =
      .ok { modname := "mymod",
            options := { name := some "other", deprecations := [] } } :=
  ⟨rfl, rfl⟩

/-- C4 counterexample: with a legacy positional name string that does not
parse as an identifier, `PyFnArgs::parse` returns the hard error before the
deprecation push is reached, so no options — and in particular no
deprecation record — are produced, contradicting the claim that the record
is appended in every case. -/
theorem c4_failed_ident_no_deprecation_counterexample :
    PyFnArgs.parse [Tok.pathTok "m", Tok.comma, Tok.litStr "1bad" 7] =
      .error ⟨"expected identifier", 7⟩ :=
  rfl

/-- C4 amended: the deprecation record is appended exactly when the legacy
positional string parses as an identifier; when that parse fails, the
parser returns a hard error scoped to the literal's span and no options
or deprecation records are produced at all. -/
theorem c4_deprecation_only_on_successful_merge (p s : String) (sp : Span) :
    (isValidIdent s = true →
      PyFnArgs.parse [Tok.pathTok p, Tok.comma, Tok.litStr s sp] =
        .ok { modname := p,
              options := { name := some s,
                           deprecations := [(Deprecation.PyfnNameArgument, sp)] } }) ∧
    (isValidIdent s = false →
      PyFnArgs.parse [Tok.pathTok p, Tok.comma, Tok.litStr s sp] =
        .error ⟨"expected identifier", sp⟩) := by
  constructor <;> intro h <;>
    simp [PyFnArgs.parse, pyFunctionOptionsParseFrom, h,
          PyFunctionOptions.set_name, PyFunctionOptions.pushDeprecation]

/-- Witness for the amended C4, covering both the valid- and the
invalid-identifier branch at concrete inputs. -/
theorem c4_deprecation_only_on_successful_merge_witness :
    PyFnArgs.parse [Tok.pathTok "m", Tok.comma, Tok.litStr "legacy_name" 3] =
      .ok { modname := "m",
            options := { name := some "legacy_name",
                         deprecations := [(Deprecation.PyfnNameArgument, 3)] } } ∧
    PyFnArgs.parse [Tok.pathTok "m", Tok.comma, Tok.litStr "1bad" 9] =
      .error ⟨"expected identifier", 9⟩ :=
  ⟨(c4_deprecation_only_on_successful_merge "m" "legacy_name" 3).1 (by decide),
   (c4_deprecation_only_on_successful_merge "m" "1bad" 9).2 (by decide)⟩

/-- C6: For module name `demo` and doc string `"hello\0"`, the generated
entry point's symbol is exactly `PyInit_demo`, it takes no parameters and
returns the opaque handle type, and its module definition embeds the doc
verbatim and the NUL-terminated `"demo\0"` as the name. -/
theorem c6_py_init_demo :
    py_init "initdemo" "demo" "hello\x00" =
      some { symbol := "PyInit_demo", params := [],
             retType := "*mut pyo3::ffi::PyObject",
             moduleDef := { name := "demo\x00", doc := "hello\x00" },
             userInit := "initdemo" } := by
  decide

/-- C7: The contract assertion on the doc string is unconditional: a doc
string not ending in a NUL byte yields no generated output, and one ending
in NUL passes the assertion and yields output. -/
theorem c7_doc_nul_assertion (f n doc : String) :
    (endsWithNul doc = false → py_init f n doc = none) ∧
    (endsWithNul doc = true → (py_init f n doc).isSome = true) := by
  constructor <;> intro h <;> simp [py_init, h]

/-- Witness for C7 on both sides of the assertion. -/
theorem c7_doc_nul_assertion_witness :
    py_init "f" "n" "hi" = none ∧ (py_init "f" "n" "hi\x00").isSome = true :=
  ⟨(c7_doc_nul_assertion "f" "n" "hi").1 (by decide),
   (c7_doc_nul_assertion "f" "n" "hi\x00").2 (by decide)⟩

/-- C9 counterexample: a trailing comma after the path, and a trailing
comma after the legacy name string, are both accepted by the parser (the
comma is consumed, and the generic options grammar accepts the then-empty
remainder), contradicting the claim that such argument lists are
rejected. -/
theorem c9_trailing_comma_accepted_counterexample :
    PyFnArgs.parse [Tok.pathTok "mymod", Tok.comma] =
      .ok { modname := "mymod", options := {} } ∧
    PyFnArgs.parse [Tok.pathTok "mymod", Tok.comma, Tok.litStr "legacy_name" 3,
                    Tok.comma] =
      .ok { modname := "mymod",
            options := { name := some "legacy_name",
                         deprecations := [(Deprecation.PyfnNameArgument, 3)] } } :=
  ⟨rfl, rfl⟩

/-- C9 amended: the empty argument list is rejected by the mandatory path
requirement with the message "expected module as first argument", but
trailing commas beyond the final consumed group are accepted: a comma
after the path alone, or after the legacy name string, is consumed and the
remaining empty options input parses to default options. -/
theorem c9_empty_rejected_trailing_comma_accepted :
    PyFnArgs.parse [] =
      .error ⟨"expected module as first argument to #[pyfn()]", 0⟩ ∧
    PyFnArgs.parse [Tok.pathTok "mymod", Tok.comma] =
      .ok { modname := "mymod", options := {} } ∧
    PyFnArgs.parse [Tok.pathTok "mymod", Tok.comma, Tok.litStr "legacy_name" 3,
                    Tok.comma] =
      .ok { modname := "mymod",
            options := { name := some "legacy_name",
                         deprecations := [(Deprecation.PyfnNameArgument, 3)] } } ∧
    PyFnArgs.parse [Tok.pathTok "mymod"] =
      .ok { modname := "mymod", options := {} } :=
  ⟨rfl, rfl, rfl, rfl⟩

theorem take_attributes_dup_error (mid post : List Attribute)
    (pa : PyFnArgs) (args2 : List Tok) (sp2 : Span)
    (hmid : hasPyfnAttr mid = false) :
    take_attributes (mid ++ ⟨"pyfn", args2, sp2⟩ :: post) pyfnExtractor
        (some pa) =
      .error ⟨"`#[pyfn] may only be specified once", sp2⟩ := by
  induction mid with
  | nil => simp [take_attributes, pyfnExtractor, is_attribute_ident]
  | cons a rest ih =>
    simp only [hasPyfnAttr, List.any_cons, Bool.or_eq_false_iff] at hmid
    have ha : is_attribute_ident a "pyfn" = false := hmid.1
    have hrest := ih hmid.2
    simp [take_attributes, pyfnExtractor, ha, hrest]

theorem take_attributes_clean_error (pre rest : List Attribute)
    (st : Option PyFnArgs) (e : Err) (hpre : hasPyfnAttr pre = false)
    (h : take_attributes rest pyfnExtractor st = .error e) :
    take_attributes (pre ++ rest) pyfnExtractor st = .error e := by
  induction pre with
  | nil => simpa using h
  | cons a rest' ih =>
    simp only [hasPyfnAttr, List.any_cons, Bool.or_eq_false_iff] at hpre
    have ha : is_attribute_ident a "pyfn" = false := hpre.1
    have hrest := ih hpre.2
    simp [take_attributes, pyfnExtractor, ha, hrest]

/-- C8 counterexample: when the first `pyfn` occurrence's argument list is
malformed (here: empty), scanning fails with the grammar error for that
first occurrence, not with the duplicate-annotation error — contradicting
"always fails with the duplicate-annotation error regardless of the
content of either occurrence's argument list". -/
theorem c8_first_malformed_counterexample :
    get_pyfn_attr [⟨"pyfn", [], 1⟩, ⟨"pyfn", [Tok.pathTok "m"], 2⟩] =
      (.error ⟨"expected module as first argument to #[pyfn()]", 0⟩,
       [⟨"pyfn", [], 1⟩, ⟨"pyfn", [Tok.pathTok "m"], 2⟩]) :=
  rfl

/-- C8 amended: provided the first `pyfn` occurrence's arguments parse
successfully, a second occurrence on the same function always fails with
the "may only be specified once" error located at the second occurrence's
span, regardless of the second occurrence's argument list and of the other
(non-`pyfn`) attributes around them. -/
theorem c8_duplicate_error_after_valid_first (pre mid post : List Attribute)
    (args1 args2 : List Tok) (sp1 sp2 : Span) (pa : PyFnArgs)
    (hpre : hasPyfnAttr pre = false) (hmid : hasPyfnAttr mid = false)
    (hparse : PyFnArgs.parse args1 = .ok pa) :
    get_pyfn_attr
        (pre ++ ⟨"pyfn", args1, sp1⟩ :: mid ++ ⟨"pyfn", args2, sp2⟩ :: post) =
      (.error ⟨"`#[pyfn] may only be specified once", sp2⟩,
       pre ++ ⟨"pyfn", args1, sp1⟩ :: mid ++ ⟨"pyfn", args2, sp2⟩ :: post) := by
  have h2 := take_attributes_dup_error mid post pa args2 sp2 hmid
  have h1 : take_attributes
      (⟨"pyfn", args1, sp1⟩ :: (mid ++ ⟨"pyfn", args2, sp2⟩ :: post))
      pyfnExtractor none =
      .error ⟨"`#[pyfn] may only be specified once", sp2⟩ := by
    simp [take_attributes, pyfnExtractor, is_attribute_ident, hparse, h2]
  have hall := take_attributes_clean_error pre _ none _ hpre h1
  simp [get_pyfn_attr, hall]

/-- Witness for the amended C8: the second occurrence has malformed (empty)
arguments, yet the reported error is the duplicate error at span 2. -/
theorem c8_duplicate_error_after_valid_first_witness :
    get_pyfn_attr [⟨"doc", [], 0⟩, ⟨"pyfn", [Tok.pathTok "m"], 1⟩,
                   ⟨"pyfn", [], 2⟩] =
      (.error ⟨"`#[pyfn] may only be specified once", 2⟩,
       [⟨"doc", [], 0⟩, ⟨"pyfn", [Tok.pathTok "m"], 1⟩, ⟨"pyfn", [], 2⟩]) :=
  c8_duplicate_error_after_valid_first [⟨"doc", [], 0⟩] [] []
    [Tok.pathTok "m"] [] 1 2 ⟨"m", {}⟩ (by decide) (by decide) rfl

/-- C10: (a) for a function whose attributes carry a `pyfn` annotation
(with parseable arguments) together with a `pyo3` option attribute, the
scanner removes both from the attribute list and merges the `pyo3`
attribute's contents into the export options before the wrapper builder
is invoked; (b) a function without the `pyfn` annotation has no attributes
removed at all, `pyo3` option attributes included. -/
theorem c10_pyo3_options_taken_only_with_pyfn :
    (∀ (pargs : List Tok) (pa : PyFnArgs) (v : String) (sv sp sq : Span),
      PyFnArgs.parse pargs = .ok pa →
      get_pyfn_attr [⟨"pyfn", pargs, sp⟩, ⟨"pyo3", [Tok.nameEq v sv], sq⟩] =
        (.ok (some { modname := pa.modname,
                     options := { pa.options with name := some v } }), [])) ∧
    (∀ attrs : List Attribute, hasPyfnAttr attrs = false →
      get_pyfn_attr attrs = (.ok none, attrs)) := by
  constructor
  · intro pargs pa v sv sp sq hparse
    simp [get_pyfn_attr, take_attributes, pyfnExtractor, is_attribute_ident,
          hparse, take_pyo3_options, pyFunctionOptionsParseFrom,
          PyFunctionOptions.set_name]
  · exact get_pyfn_attr_clean

/-- Witness for C10 at concrete attribute lists: with `pyfn` present the
`pyo3(name = ...)` attribute is removed and merged; without `pyfn` the same
`pyo3` attribute is left in place. -/
theorem c10_pyo3_options_taken_only_with_pyfn_witness :
    get_pyfn_attr [⟨"pyfn", [Tok.pathTok "m"], 1⟩,
                   ⟨"pyo3", [Tok.nameEq "renamed" 9], 2⟩] =
      (.ok (some { modname := "m",
                   options := { name := some "renamed",
                                deprecations := [] } }), []) ∧
    get_pyfn_attr [⟨"pyo3", [Tok.nameEq "renamed" 9], 2⟩] =
      (.ok none, [⟨"pyo3", [Tok.nameEq "renamed" 9], 2⟩]) :=
  ⟨(c10_pyo3_options_taken_only_with_pyfn).1 [Tok.pathTok "m"] ⟨"m", {}⟩
      "renamed" 9 1 2 rfl,
   (c10_pyo3_options_taken_only_with_pyfn).2
      [⟨"pyo3", [Tok.nameEq "renamed" 9], 2⟩] (by decide)⟩

theorem take_attributes_ok_stripOnce (attrs : List Attribute) :
    ∀ (st : Option PyFnArgs) (attrs' : List Attribute) (st' : Option PyFnArgs),
    take_attributes attrs pyfnExtractor st = .ok (attrs', st') →
    attrs' = stripOnce attrs := by
  induction attrs with
  | nil =>
    intro st attrs' st' h
    simp only [take_attributes, Except.ok.injEq, Prod.mk.injEq] at h
    simp [stripOnce, ← h.1]
  | cons a rest ih =>
    intro st attrs' st' h
    by_cases hb : (a.ident == "pyfn") = true
    · cases st with
      | some pa =>
        simp [take_attributes, pyfnExtractor, is_attribute_ident, hb] at h
      | none =>
        cases hp : PyFnArgs.parse a.args with
        | error e =>
          simp [take_attributes, pyfnExtractor, is_attribute_ident, hb, hp]
            at h
        | ok pa =>
          simp only [take_attributes, pyfnExtractor, is_attribute_ident, hb,
            if_pos, hp] at h
          have := ih _ _ _ h
          simp [stripOnce, List.filter_cons, hb]
          simpa [stripOnce] using this
    · have hb' : (a.ident == "pyfn") = false := by
        simpa using hb
      simp only [take_attributes, pyfnExtractor, is_attribute_ident, hb',
        Bool.false_eq_true, if_false] at h
      cases hr : take_attributes rest pyfnExtractor st with
      | error e => rw [hr] at h; cases h
      | ok pair =>
        rcases pair with ⟨kept, st2⟩
        rw [hr] at h
        simp only [Except.ok.injEq, Prod.mk.injEq] at h
        have := ih _ _ _ hr
        simp [← h.1, stripOnce, List.filter_cons, hb']
        simpa [stripOnce] using this

theorem take_pyo3_options_ok_filter (attrs : List Attribute) :
    ∀ (opts : PyFunctionOptions) (attrs' : List Attribute)
      (opts' : PyFunctionOptions),
    take_pyo3_options attrs opts = .ok (attrs', opts') →
    attrs' = attrs.filter (fun a => !(a.ident == "pyo3")) := by
  induction attrs with
  | nil =>
    intro opts attrs' opts' h
    simp only [take_pyo3_options, Except.ok.injEq, Prod.mk.injEq] at h
    simp [← h.1]
  | cons a rest ih =>
    intro opts attrs' opts' h
    by_cases hb : (a.ident == "pyo3") = true
    · cases hp : pyFunctionOptionsParseFrom a.args opts with
      | error e =>
        simp [take_pyo3_options, is_attribute_ident, hb, hp] at h
      | ok opts2 =>
        simp only [take_pyo3_options, is_attribute_ident, hb, if_pos, hp]
          at h
        have := ih _ _ _ h
        simp [List.filter_cons, hb, this]
    · have hb' : (a.ident == "pyo3") = false := by simpa using hb
      simp only [take_pyo3_options, is_attribute_ident, hb',
        Bool.false_eq_true, if_false] at h
      cases hr : take_pyo3_options rest opts with
      | error e => rw [hr] at h; cases h
      | ok pair =>
        rcases pair with ⟨kept, opts2⟩
        rw [hr] at h
        simp only [Except.ok.injEq, Prod.mk.injEq] at h
        have := ih _ _ _ hr
        simp [← h.1, List.filter_cons, hb', this]

theorem get_pyfn_attr_post (attrs : List Attribute) :
    (get_pyfn_attr attrs).2 = attrs ∨
    (get_pyfn_attr attrs).2 = stripOnce attrs ∨
    (get_pyfn_attr attrs).2 = stripTwice attrs := by
  unfold get_pyfn_attr
  cases hta : take_attributes attrs pyfnExtractor none with
  | error e => simp [hta]
  | ok pair =>
    rcases pair with ⟨attrs1, st⟩
    have h1 := take_attributes_ok_stripOnce attrs none attrs1 st hta
    subst h1
    cases st with
    | none => simp [hta]
    | some pa =>
      cases htp : take_pyo3_options (stripOnce attrs) pa.options with
      | error e => simp [hta, htp]
      | ok pair2 =>
        rcases pair2 with ⟨attrs2, opts⟩
        have h2 := take_pyo3_options_ok_filter (stripOnce attrs) pa.options
          attrs2 opts htp
        simp only [hta, htp]
        right; right
        simp [h2, stripTwice, stripOnce, List.filter_filter]

theorem processStmt_post_outcome (s : Stmt) :
    stmtOutcome s (processStmt s).2 = true := by
  cases s with
  | fnItem f =>
    have hd := get_pyfn_attr_post f.attrs
    rcases hg : get_pyfn_attr f.attrs with ⟨r, attrs'⟩
    rw [hg] at hd
    have hd' : attrs' = f.attrs ∨ attrs' = stripOnce f.attrs ∨
        attrs' = stripTwice f.attrs := hd
    have hattrs : stmtOutcome (Stmt.fnItem f)
        (Stmt.fnItem { f with attrs := attrs' }) = true := by
      simp only [stmtOutcome, attrsOutcome, beq_self_eq_true, Bool.true_and]
      rcases hd' with h | h | h <;> simp [h]
    rcases r with e | o
    · simpa [processStmt, hg] using hattrs
    · rcases o with _ | pa
      · simpa [processStmt, hg] using hattrs
      · simpa [processStmt, hg, impl_wrap_pyfunction] using hattrs
  | other n => simp [processStmt, stmtOutcome]
  | wrappedFn f opts => simp [processStmt, stmtOutcome]
  | addFnCall m i => simp [processStmt, stmtOutcome]

theorem stmtOutcome_refl (s : Stmt) : stmtOutcome s s = true := by
  cases s <;> simp [stmtOutcome, attrsOutcome]

theorem stmtsOutcome_cons (s s' : Stmt) (l l' : List Stmt)
    (h1 : stmtOutcome s s' = true) (h2 : stmtsOutcome l l' = true) :
    stmtsOutcome (s :: l) (s' :: l') = true := by
  simp only [stmtsOutcome, Bool.and_eq_true, beq_iff_eq, List.all_eq_true]
    at h2 ⊢
  obtain ⟨hlen, hall⟩ := h2
  refine ⟨by simp [hlen], ?_⟩
  intro q hq
  simp only [List.zip_cons_cons, List.mem_cons] at hq
  rcases hq with hq | hq
  · rw [hq]; exact h1
  · exact hall q hq

theorem stmtsOutcome_refl (l : List Stmt) : stmtsOutcome l l = true := by
  induction l with
  | nil => rfl
  | cons s rest ih =>
    exact stmtsOutcome_cons s s rest rest (stmtOutcome_refl s) ih

theorem processStmtsAux_post (l : List Stmt) :
    stmtsOutcome l (processStmtsAux l).2 = true := by
  induction l with
  | nil => rfl
  | cons s rest ih =>
    have hs := processStmt_post_outcome s
    rcases hp : processStmt s with ⟨r, s'⟩
    rw [hp] at hs
    rcases hq : processStmtsAux rest with ⟨r2, rest'⟩
    rw [hq] at ih
    cases r with
    | error e =>
      simp only [processStmtsAux, hp]
      exact stmtsOutcome_cons s s' rest rest hs (stmtsOutcome_refl rest)
    | ok synth =>
      cases r2 with
      | error e2 =>
        simp only [processStmtsAux, hp, hq]
        exact stmtsOutcome_cons s s' rest rest' hs ih
      | ok out =>
        simp only [processStmtsAux, hp, hq]
        exact stmtsOutcome_cons s s' rest rest' hs ih

/-- C5 counterexample: a module body with two annotated functions where
the second annotation's arguments are malformed.  Processing fails, yet
the left-behind syntax is not the original input: the first function's
`pyfn` attribute has already been stripped in place, contradicting the
atomic-failure claim. -/
theorem c5_not_atomic_counterexample :
    process_functions_in_module
      ⟨[Stmt.fnItem ⟨"f1", [⟨"pyfn", [Tok.pathTok "m"], 1⟩], 0⟩,
        Stmt.fnItem ⟨"f2", [⟨"pyfn", [], 2⟩], 0⟩]⟩ =
      (.error ⟨"expected module as first argument to #[pyfn()]", 0⟩,
       ⟨[Stmt.fnItem ⟨"f1", [], 0⟩,
         Stmt.fnItem ⟨"f2", [⟨"pyfn", [], 2⟩], 0⟩]⟩) ∧
    (⟨[Stmt.fnItem ⟨"f1", [], 0⟩,
       Stmt.fnItem ⟨"f2", [⟨"pyfn", [], 2⟩], 0⟩]⟩ : ItemFn) ≠
      ⟨[Stmt.fnItem ⟨"f1", [⟨"pyfn", [Tok.pathTok "m"], 1⟩], 0⟩,
        Stmt.fnItem ⟨"f2", [⟨"pyfn", [], 2⟩], 0⟩]⟩ :=
  ⟨rfl, by decide⟩

/-- C5 amended: failure is not atomic, but the damage is bounded: when the
rewriter fails, the block keeps a statement list of the same length and
order — no synthesized statement is installed — in which each statement is
either untouched or is the original function item with its `pyfn`
annotation (and possibly its `pyo3` option attributes) already stripped in
place. -/
theorem c5_error_leaves_inplace_mutations (func : ItemFn) (e : Err)
    (st' : ItemFn)
    (h : process_functions_in_module func = (.error e, st')) :
    stmtsOutcome func.stmts st'.stmts = true := by
  have hpost := processStmtsAux_post func.stmts
  unfold process_functions_in_module at h
  rcases hp : processStmtsAux func.stmts with ⟨r, mutated⟩
  rw [hp] at h hpost
  cases r with
  | ok out => simp at h
  | error e2 =>
    simp only [Prod.mk.injEq] at h
    obtain ⟨h1, h2⟩ := h
    rw [← h2]
    exact hpost

/-- Witness for the amended C5 at the concrete two-function
counterexample input. -/
theorem c5_error_leaves_inplace_mutations_witness :
    stmtsOutcome
      [Stmt.fnItem ⟨"f1", [⟨"pyfn", [Tok.pathTok "m"], 1⟩], 0⟩,
       Stmt.fnItem ⟨"f2", [⟨"pyfn", [], 2⟩], 0⟩]
      [Stmt.fnItem ⟨"f1", [], 0⟩,
       Stmt.fnItem ⟨"f2", [⟨"pyfn", [], 2⟩], 0⟩] = true :=
  c5_error_leaves_inplace_mutations
    ⟨[Stmt.fnItem ⟨"f1", [⟨"pyfn", [Tok.pathTok "m"], 1⟩], 0⟩,
      Stmt.fnItem ⟨"f2", [⟨"pyfn", [], 2⟩], 0⟩]⟩
    ⟨"expected module as first argument to #[pyfn()]", 0⟩
    ⟨[Stmt.fnItem ⟨"f1", [], 0⟩,
      Stmt.fnItem ⟨"f2", [⟨"pyfn", [], 2⟩], 0⟩]⟩
    rfl

end PyO3
